import Mathlib

/-!
# Verification of the libevdev device model and sync engine

A shallow embedding of the libevdev core described by the repository's
specification.  The repository contains only the public header
(`libevdev.h`); the C implementation file is not part of the source tree,
so the operational definitions below are modelled from the specification
(and the contracts stated in the header's documentation comments), as
noted on each definition.

The model covers: the device capability state (type/code bits, axis info,
current values, the multi-touch slot table), the per-event state update
performed by the event reader, the `SYN_DROPPED` recovery algorithm of the
SyncEngine, the reader's normal/sync mode state machine, and the static
name tables.
-/

set_option maxRecDepth 100000

namespace Evdev

/-! ## Event type and code constants (from linux/input.h, as used by libevdev) -/

def EV_SYN : Nat := 0
def EV_KEY : Nat := 1
def EV_REL : Nat := 2
def EV_ABS : Nat := 3
def EV_SW : Nat := 5
def EV_LED : Nat := 17
def EV_MAX : Nat := 31
def SYN_REPORT : Nat := 0
def SYN_DROPPED : Nat := 3
def KEY_MAX : Nat := 767
def LED_MAX : Nat := 15
def SW_MAX : Nat := 15
def ABS_MAX : Nat := 63
def ABS_MT_SLOT : Nat := 47
def ABS_MT_TRACKING_ID : Nat := 57
def ABS_MT_MAX : Nat := 61

/-- The documented cap on the number of multi-touch slots the sync engine
tracks ("currently 60" in the header's documentation of
`libevdev_next_event`). -/
def MAX_SLOTS : Nat := 60

/-- A code is a multi-touch code when it lies in the `ABS_MT_*` range
(`ABS_MT_SLOT .. ABS_MT_TOOL_Y`). -/
def isMtCode (c : Nat) : Bool := decide (ABS_MT_SLOT ≤ c) && decide (c ≤ ABS_MT_MAX)

/-! ## Data model -/

/-- Per-axis metadata, mirroring `struct input_absinfo`:
`value, minimum, maximum, fuzz, flat, resolution`. -/
structure AbsInfo where
  value : Int
  minimum : Int
  maximum : Int
  fuzz : Int
  flat : Int
  resolution : Int
deriving DecidableEq

/-- A kernel `input_event` stripped to the fields the model uses:
`(type, code, value)`.  Timestamps are outside the embedding. -/
structure InputEvent where
  type : Nat
  code : Nat
  value : Int
deriving DecidableEq

/-- Modelled from the spec: the `DeviceModel` aggregate of §3 (libevdev.c is
not under src/).  Capability bits, per-axis info, current values for
non-MT codes, and the multi-touch slot table with its current-slot index.
Identity strings, grab state and clock id are omitted: no claim touches
them. -/
structure Device where
  typeBits : Nat → Bool
  codeBits : Nat → Nat → Bool
  absInfo : Nat → AbsInfo
  values : Nat → Nat → Int
  numSlots : Nat
  mtValues : Nat → Nat → Int
  currentSlot : Nat

/-- Modelled from the spec: `libevdev_has_event_type` — constant-time test
of the supported-event-type bit (type bits form an array of at most
`EV_MAX + 1` entries). -/
def libevdev_has_event_type (dev : Device) (t : Nat) : Bool :=
  decide (t ≤ EV_MAX) && dev.typeBits t

/-- Modelled from the spec: `libevdev_has_event_code` — a code is reported
as present only when the type bit for its type is set ("if a type bit is
cleared, queries for any code of that type report absent regardless of the
code bit"). -/
def libevdev_has_event_code (dev : Device) (t c : Nat) : Bool :=
  libevdev_has_event_type dev t && dev.codeBits t c

/-- Modelled from the spec: `libevdev_disable_event_type`.  Disabling the
synchronization type is rejected, as is a type out of range; otherwise the
type bit is cleared.  The first component is the C return value
(0 success, -1 failure). -/
def libevdev_disable_event_type (dev : Device) (t : Nat) : Int × Device :=
  if t = EV_SYN ∨ EV_MAX < t then (-1, dev)
  else
    (0, { dev with typeBits := fun t2 => if t2 = t then false else dev.typeBits t2 })

/-- Modelled from the spec: `libevdev_get_abs_info` — returns the axis
info, or the not-present sentinel (`NULL` in C, `none` here) when the code
is not marked supported. -/
def libevdev_get_abs_info (dev : Device) (code : Nat) : Option AbsInfo :=
  if libevdev_has_event_code dev EV_ABS code then some (dev.absInfo code) else none

/-- Modelled from the spec: `libevdev_get_abs_minimum` — "axis minimum for
the given axis or 0 if the axis is invalid". -/
def libevdev_get_abs_minimum (dev : Device) (code : Nat) : Int :=
  match libevdev_get_abs_info dev code with
  | some a => a.minimum
  | none => 0

/-- Modelled from the spec: `libevdev_get_abs_maximum`. -/
def libevdev_get_abs_maximum (dev : Device) (code : Nat) : Int :=
  match libevdev_get_abs_info dev code with
  | some a => a.maximum
  | none => 0

/-- Modelled from the spec: `libevdev_get_abs_fuzz`. -/
def libevdev_get_abs_fuzz (dev : Device) (code : Nat) : Int :=
  match libevdev_get_abs_info dev code with
  | some a => a.fuzz
  | none => 0

/-- Modelled from the spec: `libevdev_get_abs_flat`. -/
def libevdev_get_abs_flat (dev : Device) (code : Nat) : Int :=
  match libevdev_get_abs_info dev code with
  | some a => a.flat
  | none => 0

/-- Modelled from the spec: `libevdev_get_abs_resolution`. -/
def libevdev_get_abs_resolution (dev : Device) (code : Nat) : Int :=
  match libevdev_get_abs_info dev code with
  | some a => a.resolution
  | none => 0

/-- Modelled from the spec: `libevdev_get_event_value` — the shadow value
of a (type, code) pair; `EV_ABS` values live in the axis-info store. -/
def libevdev_get_event_value (dev : Device) (t c : Nat) : Int :=
  if t = EV_ABS then (dev.absInfo c).value else dev.values t c

/-- Modelled from the spec: `libevdev_fetch_event_value` — the combined
existence-check-and-read of the header's documented shortcut.  The pair is
(C return value, pointee after the call): on success the pointee receives
the current value, on failure it keeps its prior contents `value`. -/
def libevdev_fetch_event_value (dev : Device) (t c : Nat) (value : Int) : Int × Int :=
  if libevdev_has_event_type dev t && libevdev_has_event_code dev t c then
    (1, libevdev_get_event_value dev t c)
  else
    (0, value)

/-! ## Name tables -/

/-- Modelled from the spec: the compile-time per-type code name tables
(the generated `event-names.h` is not under src/).  A representative
closed table per type, each entry pairing the symbolic name with its
numeric code; alias codes that share a numeric value appear as separate
entries in table order, the canonical spelling first (`BTN_SOUTH` /
`BTN_A` style). -/
def eventCodeNames (t : Nat) : List (String × Nat) :=
  if t = EV_SYN then
    [("SYN_REPORT", 0), ("SYN_CONFIG", 1), ("SYN_MT_REPORT", 2), ("SYN_DROPPED", 3)]
  else if t = EV_KEY then
    [("KEY_RESERVED", 0), ("KEY_ESC", 1), ("KEY_A", 30), ("KEY_B", 48),
     ("BTN_SOUTH", 304), ("BTN_A", 304), ("BTN_EAST", 305), ("BTN_B", 305)]
  else if t = EV_REL then
    [("REL_X", 0), ("REL_Y", 1), ("REL_WHEEL", 8)]
  else if t = EV_ABS then
    [("ABS_X", 0), ("ABS_Y", 1), ("ABS_MT_SLOT", 47),
     ("ABS_MT_POSITION_X", 53), ("ABS_MT_TRACKING_ID", 57)]
  else []

/-- Modelled from the spec: `libevdev_event_code_get_name` — the table's
canonical spelling for a code is the first entry carrying its numeric
value; `NULL` (here `none`) for an unknown type or code. -/
def libevdev_event_code_get_name (t c : Nat) : Option String :=
  ((eventCodeNames t).find? (fun e => e.2 == c)).map (fun e => e.1)

/-- Modelled from the spec: `libevdev_event_code_from_name` — case
sensitive exact match on the full symbolic name, first table match wins,
-1 when not found. -/
def libevdev_event_code_from_name (t : Nat) (name : String) : Int :=
  match (eventCodeNames t).find? (fun e => e.1 == name) with
  | some e => (e.2 : Int)
  | none => -1

/-! ## Demo devices used by witnesses -/

/-- A small concrete device: `EV_KEY`/`KEY_A` and `EV_ABS`/`ABS_X`
enabled, everything else absent. -/
def capDemoDevice : Device where
  typeBits := fun t => t == EV_KEY || t == EV_ABS
  codeBits := fun t c => (t == EV_KEY && c == 30) || (t == EV_ABS && c == 0)
  absInfo := fun _ => ⟨0, -100, 100, 2, 4, 10⟩
  values := fun _ _ => 0
  numSlots := 0
  mtValues := fun _ _ => 0
  currentSlot := 0

/-! ## Capability claims -/

/-- C2: for all types `t` and codes `c`, `has_event_code t c` implies
`has_event_type t`; and after a successful `disable_event_type t`,
`has_event_code t c` is false for every code `c` of that type. -/
theorem has_code_implies_has_type_and_disable_clears (dev : Device) (t c : Nat) :
    (libevdev_has_event_code dev t c = true → libevdev_has_event_type dev t = true) ∧
    ((libevdev_disable_event_type dev t).1 = 0 →
      libevdev_has_event_code (libevdev_disable_event_type dev t).2 t c = false) := by
  constructor
  · intro h
    simp only [libevdev_has_event_code, Bool.and_eq_true] at h
    exact h.1
  · intro h
    unfold libevdev_disable_event_type at h ⊢
    split at h
    · simp at h
    · next hcond =>
      rw [if_neg hcond]
      simp [libevdev_has_event_code, libevdev_has_event_type]

/-- Witness for C2 at a concrete device, type and code. -/
theorem has_code_implies_has_type_and_disable_clears_witness :
    (libevdev_has_event_code capDemoDevice EV_KEY 30 = true →
      libevdev_has_event_type capDemoDevice EV_KEY = true) ∧
    ((libevdev_disable_event_type capDemoDevice EV_KEY).1 = 0 →
      libevdev_has_event_code
        (libevdev_disable_event_type capDemoDevice EV_KEY).2 EV_KEY 30 = false) :=
  has_code_implies_has_type_and_disable_clears capDemoDevice EV_KEY 30

/-- C8: `get_abs_info c` returns the not-present sentinel iff `c` is not
marked supported; for an unsupported code every scalar accessor returns 0
rather than an error. -/
theorem abs_info_sentinel_iff_unsupported (dev : Device) (c : Nat) :
    (libevdev_get_abs_info dev c = none ↔
      libevdev_has_event_code dev EV_ABS c = false) ∧
    (libevdev_has_event_code dev EV_ABS c = false →
      libevdev_get_abs_minimum dev c = 0 ∧ libevdev_get_abs_maximum dev c = 0 ∧
      libevdev_get_abs_fuzz dev c = 0 ∧ libevdev_get_abs_flat dev c = 0 ∧
      libevdev_get_abs_resolution dev c = 0) := by
  cases h : libevdev_has_event_code dev EV_ABS c with
  | false =>
    refine ⟨by simp [libevdev_get_abs_info, h], fun _ => ?_⟩
    simp [libevdev_get_abs_minimum, libevdev_get_abs_maximum, libevdev_get_abs_fuzz,
      libevdev_get_abs_flat, libevdev_get_abs_resolution, libevdev_get_abs_info, h]
  | true =>
    refine ⟨by simp [libevdev_get_abs_info, h], fun h2 => ?_⟩
    simp at h2

/-- Witness for C8 at a concrete device and an unsupported axis code. -/
theorem abs_info_sentinel_iff_unsupported_witness :
    (libevdev_get_abs_info capDemoDevice 5 = none ↔
      libevdev_has_event_code capDemoDevice EV_ABS 5 = false) ∧
    (libevdev_has_event_code capDemoDevice EV_ABS 5 = false →
      libevdev_get_abs_minimum capDemoDevice 5 = 0 ∧
      libevdev_get_abs_maximum capDemoDevice 5 = 0 ∧
      libevdev_get_abs_fuzz capDemoDevice 5 = 0 ∧
      libevdev_get_abs_flat capDemoDevice 5 = 0 ∧
      libevdev_get_abs_resolution capDemoDevice 5 = 0) :=
  abs_info_sentinel_iff_unsupported capDemoDevice 5

/-- C10: `fetch_event_value` returns non-zero and stores the current
value when the device supports both the type and the code, and returns 0
leaving the pointee untouched otherwise. -/
theorem fetch_event_value_frame (dev : Device) (t c : Nat) (v : Int) :
    ((libevdev_has_event_type dev t && libevdev_has_event_code dev t c) = true →
      (libevdev_fetch_event_value dev t c v).1 ≠ 0 ∧
      (libevdev_fetch_event_value dev t c v).2 = libevdev_get_event_value dev t c) ∧
    ((libevdev_has_event_type dev t && libevdev_has_event_code dev t c) = false →
      libevdev_fetch_event_value dev t c v = (0, v)) := by
  constructor <;> intro h <;> simp [libevdev_fetch_event_value, h]

/-- Witness for C10 at a concrete device: a supported code on the success
path, with an arbitrary initial pointee value. -/
theorem fetch_event_value_frame_witness :
    ((libevdev_has_event_type capDemoDevice EV_KEY &&
        libevdev_has_event_code capDemoDevice EV_KEY 30) = true →
      (libevdev_fetch_event_value capDemoDevice EV_KEY 30 42).1 ≠ 0 ∧
      (libevdev_fetch_event_value capDemoDevice EV_KEY 30 42).2 =
        libevdev_get_event_value capDemoDevice EV_KEY 30) ∧
    ((libevdev_has_event_type capDemoDevice EV_KEY &&
        libevdev_has_event_code capDemoDevice EV_KEY 30) = false →
      libevdev_fetch_event_value capDemoDevice EV_KEY 30 42 = (0, 42)) :=
  fetch_event_value_frame capDemoDevice EV_KEY 30 42

/-! ## Name round-trip claim -/

/-- Within each per-type table the symbolic names are pairwise distinct
(alias codes share a value, never a spelling). -/
theorem eventCodeNames_names_nodup (t : Nat) :
    ((eventCodeNames t).map Prod.fst).Nodup := by
  unfold eventCodeNames
  repeat' split
  all_goals decide

/-- C9: for every code present in a type's name table, looking the
returned name back up yields the same numeric code, aliases included. -/
theorem code_from_name_get_name_roundtrip (t c : Nat)
    (h : ∃ p ∈ eventCodeNames t, p.2 = c) :
    ∃ n, libevdev_event_code_get_name t c = some n ∧
      libevdev_event_code_from_name t n = (c : Int) := by
  obtain ⟨p, hp, hpc⟩ := h
  have hsome : ((eventCodeNames t).find? (fun e => e.2 == c)).isSome := by
    rw [List.find?_isSome]
    exact ⟨p, hp, by simp [hpc]⟩
  obtain ⟨q, hq⟩ := Option.isSome_iff_exists.mp hsome
  have hqmem : q ∈ eventCodeNames t := List.mem_of_find?_eq_some hq
  have hqc : q.2 = c := by simpa using List.find?_some hq
  refine ⟨q.1, ?_, ?_⟩
  · simp [libevdev_event_code_get_name, hq]
  · have hsome2 : ((eventCodeNames t).find? (fun e => e.1 == q.1)).isSome := by
      rw [List.find?_isSome]
      exact ⟨q, hqmem, by simp⟩
    obtain ⟨r, hr⟩ := Option.isSome_iff_exists.mp hsome2
    have hrmem : r ∈ eventCodeNames t := List.mem_of_find?_eq_some hr
    have hrn : r.1 = q.1 := by simpa using List.find?_some hr
    have hrq : r = q :=
      List.inj_on_of_nodup_map (eventCodeNames_names_nodup t) hrmem hqmem hrn
    rw [libevdev_event_code_from_name, hr, hrq]
    simp [hqc]

/-- Witness for C9 at the `BTN_SOUTH`/`BTN_A` alias pair: both spell code
304, the canonical spelling is returned and resolves back to 304. -/
theorem code_from_name_get_name_roundtrip_witness :
    ∃ n, libevdev_event_code_get_name EV_KEY 304 = some n ∧
      libevdev_event_code_from_name EV_KEY n = (304 : Int) :=
  code_from_name_get_name_roundtrip EV_KEY 304 (by decide)

/-! ## Kernel snapshot and event processing -/

/-- Modelled from the spec: the fresh kernel state the SyncEngine
observes — the same ioctl surface the Initializer reads, identity and
name excepted: key/LED/switch state bitfields, per-axis values, per-slot
MT values, and the kernel's current slot (the `ABS_MT_SLOT` axis value
from the per-axis info). -/
structure Snapshot where
  keys : Nat → Bool
  leds : Nat → Bool
  sws : Nat → Bool
  absVals : Nat → Int
  mt : Nat → Nat → Int
  currentSlot : Nat

/-- The event value encoding a key/LED/switch state bit. -/
def bitValue (b : Bool) : Int := if b then 1 else 0

/-- Does the device track multi-touch slots?  Modelled from the spec: the
SlotTable is present iff `ABS_MT_SLOT` is supported (fake-MT devices are
marked no-MT at attach time, their `ABS_MT_SLOT` bit cleared from the
model's point of view). -/
def hasMtSlots (dev : Device) : Bool := libevdev_has_event_code dev EV_ABS ABS_MT_SLOT

/-- Modelled from the spec: the shadow-state update the reader applies to
the model for each processed event (§4.3, §4.7): `EV_SYN` markers carry
no state; an `EV_ABS`/`ABS_MT_SLOT` event clamps the current slot to
`min v (N-1)` when `0 ≤ v` and is ignored otherwise; another MT code
writes the current slot's cell when the current slot is in range; a
non-MT `EV_ABS` code updates the axis value; every other type updates the
per-code value store. -/
def processEvent (dev : Device) (ev : InputEvent) : Device :=
  if ev.type = EV_SYN then dev
  else if ev.type = EV_ABS then
    if ev.code = ABS_MT_SLOT ∧ hasMtSlots dev = true then
      if 0 ≤ ev.value then
        { dev with currentSlot := min ev.value.toNat (dev.numSlots - 1) }
      else dev
    else if isMtCode ev.code = true ∧ hasMtSlots dev = true then
      if dev.currentSlot < dev.numSlots then
        { dev with mtValues := fun s c =>
            if s = dev.currentSlot ∧ c = ev.code then ev.value else dev.mtValues s c }
      else dev
    else
      { dev with absInfo := fun c =>
          if c = ev.code then { dev.absInfo c with value := ev.value }
          else dev.absInfo c }
  else
    { dev with values := fun t c =>
        if t = ev.type ∧ c = ev.code then ev.value else dev.values t c }

/-! ## The SyncEngine delta -/

/-- The supported `EV_KEY` codes, in code order. -/
def keyCodes (dev : Device) : List Nat :=
  (List.range (KEY_MAX + 1)).filter (fun c => libevdev_has_event_code dev EV_KEY c)

/-- The supported `EV_LED` codes, in code order. -/
def ledCodes (dev : Device) : List Nat :=
  (List.range (LED_MAX + 1)).filter (fun c => libevdev_has_event_code dev EV_LED c)

/-- The supported `EV_SW` codes, in code order. -/
def swCodes (dev : Device) : List Nat :=
  (List.range (SW_MAX + 1)).filter (fun c => libevdev_has_event_code dev EV_SW c)

/-- The supported non-MT `EV_ABS` codes, in code order. -/
def absAxisCodes (dev : Device) : List Nat :=
  (List.range (ABS_MAX + 1)).filter
    (fun c => libevdev_has_event_code dev EV_ABS c && !isMtCode c)

/-- The supported `ABS_MT_*` codes other than `ABS_MT_SLOT`, in code
order. -/
def mtAxisCodes (dev : Device) : List Nat :=
  (List.range (ABS_MAX + 1)).filter
    (fun c => libevdev_has_event_code dev EV_ABS c && isMtCode c &&
      decide (c ≠ ABS_MT_SLOT))

/-- Modelled from the spec (§4.6 step 1): one `EV_KEY` event per
supported key whose new state differs from the cached state. -/
def syncKeyEvents (dev : Device) (snap : Snapshot) : List InputEvent :=
  (keyCodes dev).filterMap (fun c =>
    if dev.values EV_KEY c ≠ bitValue (snap.keys c) then
      some ⟨EV_KEY, c, bitValue (snap.keys c)⟩
    else none)

/-- Modelled from the spec (§4.6 step 2): LED deltas. -/
def syncLedEvents (dev : Device) (snap : Snapshot) : List InputEvent :=
  (ledCodes dev).filterMap (fun c =>
    if dev.values EV_LED c ≠ bitValue (snap.leds c) then
      some ⟨EV_LED, c, bitValue (snap.leds c)⟩
    else none)

/-- Modelled from the spec (§4.6 step 3): switch deltas. -/
def syncSwEvents (dev : Device) (snap : Snapshot) : List InputEvent :=
  (swCodes dev).filterMap (fun c =>
    if dev.values EV_SW c ≠ bitValue (snap.sws c) then
      some ⟨EV_SW, c, bitValue (snap.sws c)⟩
    else none)

/-- Modelled from the spec (§4.6 step 4): non-MT absolute axis deltas;
fuzz is not applied during sync. -/
def syncAbsEvents (dev : Device) (snap : Snapshot) : List InputEvent :=
  (absAxisCodes dev).filterMap (fun c =>
    if (dev.absInfo c).value ≠ snap.absVals c then
      some ⟨EV_ABS, c, snap.absVals c⟩
    else none)

/-- The MT codes of slot `s` whose cached value differs from the
snapshot, in code order. -/
def changedMtCodes (dev : Device) (snap : Snapshot) (s : Nat) : List Nat :=
  (mtAxisCodes dev).filter (fun c => dev.mtValues s c != snap.mt s c)

/-- Modelled from the spec (§4.6 step 5): the changed codes of a slot in
emission order — `ABS_MT_TRACKING_ID` moves to the end when its new value
is -1 (terminating the touch) and to the front when its old value was -1
and the new one is not. -/
def orderedMtCodes (dev : Device) (snap : Snapshot) (s : Nat) : List Nat :=
  if ABS_MT_TRACKING_ID ∈ changedMtCodes dev snap s then
    if snap.mt s ABS_MT_TRACKING_ID = -1 then
      (changedMtCodes dev snap s).filter (fun c => decide (c ≠ ABS_MT_TRACKING_ID)) ++
        [ABS_MT_TRACKING_ID]
    else if dev.mtValues s ABS_MT_TRACKING_ID = -1 then
      ABS_MT_TRACKING_ID ::
        (changedMtCodes dev snap s).filter (fun c => decide (c ≠ ABS_MT_TRACKING_ID))
    else changedMtCodes dev snap s
  else changedMtCodes dev snap s

/-- Modelled from the spec (§4.6 step 5): if any MT value in slot `s`
changed, first an `ABS_MT_SLOT` event with value `s`, then the changed
codes with their new values, in emission order. -/
def syncSlotEvents (dev : Device) (snap : Snapshot) (s : Nat) : List InputEvent :=
  if changedMtCodes dev snap s = [] then []
  else
    ⟨EV_ABS, ABS_MT_SLOT, (s : Int)⟩ ::
      (orderedMtCodes dev snap s).map (fun c => ⟨EV_ABS, c, snap.mt s c⟩)

/-- Modelled from the spec (§4.6 step 5): per-slot deltas for every slot
index below `min N MAX_SLOTS`; slots beyond the cap are skipped.  No MT
events are synthesized for a device without a slot table. -/
def syncMtEvents (dev : Device) (snap : Snapshot) : List InputEvent :=
  if hasMtSlots dev = true then
    ((List.range (min dev.numSlots MAX_SLOTS)).map (syncSlotEvents dev snap)).flatten
  else []

/-- The frame-terminating `EV_SYN`/`SYN_REPORT` event. -/
def synReportEvent : InputEvent := ⟨EV_SYN, SYN_REPORT, 0⟩

/-- Modelled from the spec (§4.6): the full synthesized sync delta —
keys, LEDs, switches, non-MT axes, MT slots, then a single terminating
`SYN_REPORT` (`EV_REL` is stateless, nothing is emitted for it). -/
def syncEvents (dev : Device) (snap : Snapshot) : List InputEvent :=
  syncKeyEvents dev snap ++ syncLedEvents dev snap ++ syncSwEvents dev snap ++
    syncAbsEvents dev snap ++ syncMtEvents dev snap ++ [synReportEvent]

/-! ## The EventReader state machine -/

/-- The reader: the shadow device model, the queue of synthesized sync
events, the mode flag (`syncing = true` is the Sync state), and the
kernel snapshot observed when the current sync started. -/
structure Reader where
  dev : Device
  queue : List InputEvent
  syncing : Bool
  snap : Snapshot

/-- The outcome of one `next` call: `LIBEVDEV_READ_STATUS_SUCCESS` with an
event, `LIBEVDEV_READ_STATUS_SYNC` (whose event is undefined for a forced
sync, hence the `Option`), or `-EAGAIN`. -/
inductive NextResult where
  | success (ev : InputEvent)
  | sync (ev : Option InputEvent)
  | eagain

/-- Modelled from the spec (§4.6/§4.7): entering sync mode — the
SyncEngine's delta is queued, the snapshot recorded, the mode switched. -/
def startSync (r : Reader) (snap : Snapshot) : Reader :=
  { r with dev := r.dev, queue := syncEvents r.dev snap, syncing := true, snap := snap }

/-- Modelled from the spec (§4.7): `next` with `LIBEVDEV_READ_FLAG_SYNC` —
pop one queued event and apply its effect to the model; once the queue is
drained, return to Normal and report `EAGAIN`. -/
def nextSync (r : Reader) : NextResult × Reader :=
  match r.queue with
  | [] => (.eagain, { r with syncing := false })
  | e :: rest =>
    (.sync (some e), { r with dev := processEvent r.dev e, queue := rest })

/-- Modelled from the spec (§4.7): `next` with
`LIBEVDEV_READ_FLAG_FORCE_SYNC` — run the SyncEngine on the fresh kernel
state, enter Sync, return the SYNC status with an undefined event. -/
def nextForceSync (r : Reader) (snap : Snapshot) : NextResult × Reader :=
  (.sync none, startSync r snap)

/-- Modelled from the spec (§4.6): fast-forwarding the model to the fresh
snapshot — key/LED/switch values, non-MT axis values, the capped slot
table and the current slot are set to the snapshot's state. -/
def fastForward (dev : Device) (snap : Snapshot) : Device :=
  { dev with
    values := fun t c =>
      if t = EV_KEY then bitValue (snap.keys c)
      else if t = EV_LED then bitValue (snap.leds c)
      else if t = EV_SW then bitValue (snap.sws c)
      else dev.values t c,
    absInfo := fun c =>
      if isMtCode c = true then dev.absInfo c
      else { dev.absInfo c with value := snap.absVals c },
    mtValues := fun s c =>
      if hasMtSlots dev = true ∧ s < min dev.numSlots MAX_SLOTS then snap.mt s c
      else dev.mtValues s c,
    currentSlot := if hasMtSlots dev = true then snap.currentSlot else dev.currentSlot }

/-- Modelled from the spec (§4.6 Cancellation, §4.7): when the caller
abandons sync by reading in normal mode, the queue is discarded and the
model fast-forwarded to the snapshot before anything else happens. -/
def cancelSync (r : Reader) : Reader :=
  if r.syncing = true then
    { r with dev := fastForward r.dev r.snap, queue := [], syncing := false }
  else r

/-- Modelled from the spec (§4.7): the normal-mode read loop over the
pending kernel byte stream: `SYN_DROPPED` enters sync mode, other `EV_SYN`
markers pass through, events for disabled types/codes are filtered,
anything else updates the model and is returned. -/
def nextNormalGo (r : Reader) (snap : Snapshot) :
    List InputEvent → NextResult × Reader × List InputEvent
  | [] => (.eagain, r, [])
  | e :: rest =>
    if e.type = EV_SYN ∧ e.code = SYN_DROPPED then
      (.sync (some e), startSync r snap, rest)
    else if e.type = EV_SYN then
      (.success e, r, rest)
    else if libevdev_has_event_code r.dev e.type e.code = true then
      (.success e, { r with dev := processEvent r.dev e }, rest)
    else nextNormalGo r snap rest

/-- Modelled from the spec (§4.7): `next` with
`LIBEVDEV_READ_FLAG_NORMAL` — an abandoned sync is cancelled first, then
the kernel stream is consumed; `snap` is the kernel state a `SYN_DROPPED`
in the stream would snapshot. -/
def nextNormal (r : Reader) (snap : Snapshot) (kernel : List InputEvent) :
    NextResult × Reader × List InputEvent :=
  nextNormalGo (cancelSync r) snap kernel

/-- Drain the whole sync queue through `nextSync` calls until the one
returning `EAGAIN` — the caller's documented drain loop. -/
def syncDrainGo : List InputEvent → Reader → Reader
  | [], r => (nextSync r).2
  | _ :: q, r => syncDrainGo q (nextSync r).2

/-- The reader after the documented sync drain loop (repeated
`next(SYNC)` until `EAGAIN`). -/
def syncDrain (r : Reader) : Reader := syncDrainGo r.queue r

/-! ## Shadow-state / snapshot agreement -/

/-- The shadow state's value components coincide with a kernel snapshot:
key, LED and switch state for every supported code, every supported
non-MT absolute axis value, and every supported MT cell of every slot
below the cap. -/
def agreesValues (dev : Device) (snap : Snapshot) : Prop :=
  (∀ c < KEY_MAX + 1, libevdev_has_event_code dev EV_KEY c = true →
    dev.values EV_KEY c = bitValue (snap.keys c)) ∧
  (∀ c < LED_MAX + 1, libevdev_has_event_code dev EV_LED c = true →
    dev.values EV_LED c = bitValue (snap.leds c)) ∧
  (∀ c < SW_MAX + 1, libevdev_has_event_code dev EV_SW c = true →
    dev.values EV_SW c = bitValue (snap.sws c)) ∧
  (∀ c < ABS_MAX + 1, libevdev_has_event_code dev EV_ABS c = true →
    isMtCode c = false → (dev.absInfo c).value = snap.absVals c) ∧
  (∀ s < min dev.numSlots MAX_SLOTS, ∀ c < ABS_MAX + 1,
    (hasMtSlots dev = true ∧ libevdev_has_event_code dev EV_ABS c = true ∧
      isMtCode c = true ∧ c ≠ ABS_MT_SLOT) → dev.mtValues s c = snap.mt s c)

/-- Full agreement with a snapshot: the value components agree and, for a
device with a slot table, the current slot matches the kernel's. -/
def agreesSnapshot (dev : Device) (snap : Snapshot) : Prop :=
  agreesValues dev snap ∧
    (hasMtSlots dev = true → dev.currentSlot = snap.currentSlot)

instance (dev : Device) (snap : Snapshot) : Decidable (agreesValues dev snap) := by
  unfold agreesValues
  refine @instDecidableAnd _ _ ?_ (@instDecidableAnd _ _ ?_
    (@instDecidableAnd _ _ ?_ (@instDecidableAnd _ _ ?_ ?_)))
  all_goals infer_instance

instance (dev : Device) (snap : Snapshot) : Decidable (agreesSnapshot dev snap) := by
  unfold agreesSnapshot
  infer_instance

/-! ## Frame and preservation lemmas for event processing -/

theorem processEvent_typeBits (dev : Device) (ev : InputEvent) :
    (processEvent dev ev).typeBits = dev.typeBits := by
  unfold processEvent
  repeat' split
  all_goals rfl

theorem processEvent_codeBits (dev : Device) (ev : InputEvent) :
    (processEvent dev ev).codeBits = dev.codeBits := by
  unfold processEvent
  repeat' split
  all_goals rfl

theorem processEvent_numSlots (dev : Device) (ev : InputEvent) :
    (processEvent dev ev).numSlots = dev.numSlots := by
  unfold processEvent
  repeat' split
  all_goals rfl

theorem processEvent_has_event_code (dev : Device) (ev : InputEvent) (t c : Nat) :
    libevdev_has_event_code (processEvent dev ev) t c =
      libevdev_has_event_code dev t c := by
  unfold libevdev_has_event_code libevdev_has_event_type
  rw [processEvent_typeBits, processEvent_codeBits]

theorem processEvent_hasMtSlots (dev : Device) (ev : InputEvent) :
    hasMtSlots (processEvent dev ev) = hasMtSlots dev :=
  processEvent_has_event_code dev ev EV_ABS ABS_MT_SLOT

theorem foldl_typeBits (evs : List InputEvent) :
    ∀ dev : Device, (evs.foldl processEvent dev).typeBits = dev.typeBits := by
  induction evs with
  | nil => intro dev; rfl
  | cons e rest ih => intro dev; rw [List.foldl_cons, ih, processEvent_typeBits]

theorem foldl_codeBits (evs : List InputEvent) :
    ∀ dev : Device, (evs.foldl processEvent dev).codeBits = dev.codeBits := by
  induction evs with
  | nil => intro dev; rfl
  | cons e rest ih => intro dev; rw [List.foldl_cons, ih, processEvent_codeBits]

theorem foldl_numSlots (evs : List InputEvent) :
    ∀ dev : Device, (evs.foldl processEvent dev).numSlots = dev.numSlots := by
  induction evs with
  | nil => intro dev; rfl
  | cons e rest ih => intro dev; rw [List.foldl_cons, ih, processEvent_numSlots]

theorem foldl_has_event_code (evs : List InputEvent) (dev : Device) (t c : Nat) :
    libevdev_has_event_code (evs.foldl processEvent dev) t c =
      libevdev_has_event_code dev t c := by
  unfold libevdev_has_event_code libevdev_has_event_type
  rw [foldl_typeBits, foldl_codeBits]

theorem foldl_hasMtSlots (evs : List InputEvent) (dev : Device) :
    hasMtSlots (evs.foldl processEvent dev) = hasMtSlots dev :=
  foldl_has_event_code evs dev EV_ABS ABS_MT_SLOT

theorem processEvent_syn (dev : Device) (ev : InputEvent) (h : ev.type = EV_SYN) :
    processEvent dev ev = dev := by
  unfold processEvent
  rw [if_pos h]

/-- A key/LED/switch-style event writes its value cell. -/
theorem processEvent_values_set (dev : Device) (ev : InputEvent)
    (h1 : ev.type ≠ EV_SYN) (h2 : ev.type ≠ EV_ABS) :
    (processEvent dev ev).values ev.type ev.code = ev.value := by
  unfold processEvent
  rw [if_neg h1, if_neg h2]
  show (if ev.type = ev.type ∧ ev.code = ev.code then ev.value
    else dev.values ev.type ev.code) = ev.value
  simp

/-- Any event that is not a value write for `(t, c)` leaves that value
cell alone. -/
theorem processEvent_values_frame (dev : Device) (ev : InputEvent) (t c : Nat)
    (h : ¬(ev.type = t ∧ ev.code = c ∧ t ≠ EV_SYN ∧ t ≠ EV_ABS)) :
    (processEvent dev ev).values t c = dev.values t c := by
  unfold processEvent
  by_cases h1 : ev.type = EV_SYN
  · rw [if_pos h1]
  · rw [if_neg h1]
    by_cases h2 : ev.type = EV_ABS
    · rw [if_pos h2]
      repeat' split
      all_goals rfl
    · rw [if_neg h2]
      show (if t = ev.type ∧ c = ev.code then ev.value else dev.values t c) =
        dev.values t c
      rw [if_neg]
      rintro ⟨h3, h4⟩
      exact h ⟨h3.symm, h4.symm, fun hh => h1 (h3.symm.trans hh),
        fun hh => h2 (h3.symm.trans hh)⟩

theorem foldl_values_frame (evs : List InputEvent) :
    ∀ (dev : Device) (t c : Nat),
      (∀ e ∈ evs, ¬(e.type = t ∧ e.code = c ∧ t ≠ EV_SYN ∧ t ≠ EV_ABS)) →
      (evs.foldl processEvent dev).values t c = dev.values t c := by
  induction evs with
  | nil => intro dev t c _; rfl
  | cons e rest ih =>
    intro dev t c h
    rw [List.foldl_cons, ih _ _ _ (fun x hx => h x (List.mem_cons_of_mem _ hx)),
      processEvent_values_frame dev e t c (h e (List.mem_cons_self _ _))]

/-- Folding a homogeneous list of value-writing events whose values are a
function of the code: the final cell holds the function's value exactly
when some event wrote the code. -/
theorem foldl_values_fun (t : Nat) (f : Nat → Int) (ht1 : t ≠ EV_SYN)
    (ht2 : t ≠ EV_ABS) (evs : List InputEvent) :
    ∀ dev : Device, (∀ e ∈ evs, e.type = t ∧ e.value = f e.code) →
      ∀ t2 c, (evs.foldl processEvent dev).values t2 c =
        if t2 = t ∧ ∃ e ∈ evs, e.code = c then f c else dev.values t2 c := by
  induction evs with
  | nil => intro dev _ t2 c; simp
  | cons e rest ih =>
    intro dev h t2 c
    obtain ⟨het, hev⟩ := h e (List.mem_cons_self _ _)
    rw [List.foldl_cons, ih _ (fun x hx => h x (List.mem_cons_of_mem _ hx))]
    by_cases hr : t2 = t ∧ ∃ x ∈ rest, x.code = c
    · rw [if_pos hr, if_pos ⟨hr.1, hr.2.imp (fun x hx =>
        ⟨List.mem_cons_of_mem _ hx.1, hx.2⟩)⟩]
    · rw [if_neg hr]
      by_cases he : t2 = t ∧ e.code = c
      · have hset : (processEvent dev e).values t2 c = e.value := by
          rw [he.1, ← het, ← he.2]
          exact processEvent_values_set dev e (het ▸ ht1) (het ▸ ht2)
        rw [if_pos ⟨he.1, e, List.mem_cons_self _ _, he.2⟩, hset, hev, he.2]
      · have hcond : ¬(t2 = t ∧ ∃ x ∈ e :: rest, x.code = c) := by
          rintro ⟨h1, x, hx, h2⟩
          rcases List.mem_cons.mp hx with hx | hx
          · exact he ⟨h1, hx ▸ h2⟩
          · exact hr ⟨h1, x, hx, h2⟩
        rw [if_neg hcond, processEvent_values_frame]
        rintro ⟨h1, h2, h3, h4⟩
        exact hcond ⟨(het.symm.trans h1).symm ▸ rfl, e, List.mem_cons_self _ _, h2⟩

theorem processEvent_absInfo_of_type (dev : Device) (ev : InputEvent)
    (h : ev.type ≠ EV_ABS) : (processEvent dev ev).absInfo = dev.absInfo := by
  unfold processEvent
  by_cases h1 : ev.type = EV_SYN
  · rw [if_pos h1]
  · rw [if_neg h1, if_neg h]

/-- With a slot table present, events in the MT code range never touch
the per-axis info store. -/
theorem processEvent_absInfo_mt (dev : Device) (ev : InputEvent)
    (hm : hasMtSlots dev = true) (hmt : isMtCode ev.code = true) :
    (processEvent dev ev).absInfo = dev.absInfo := by
  unfold processEvent
  by_cases h1 : ev.type = EV_SYN
  · rw [if_pos h1]
  · rw [if_neg h1]
    by_cases h2 : ev.type = EV_ABS
    · rw [if_pos h2]
      by_cases h3 : ev.code = ABS_MT_SLOT ∧ hasMtSlots dev = true
      · rw [if_pos h3]
        split <;> rfl
      · rw [if_neg h3, if_pos ⟨hmt, hm⟩]
        split <;> rfl
    · rw [if_neg h2]

theorem processEvent_absInfo_frame (dev : Device) (ev : InputEvent) (c : Nat)
    (h : ¬(ev.type = EV_ABS ∧ ev.code = c)) :
    (processEvent dev ev).absInfo c = dev.absInfo c := by
  by_cases h2 : ev.type = EV_ABS
  · unfold processEvent
    rw [if_neg (fun hh : ev.type = EV_SYN => absurd (h2.symm.trans hh) (by decide)),
      if_pos h2]
    by_cases h3 : ev.code = ABS_MT_SLOT ∧ hasMtSlots dev = true
    · rw [if_pos h3]; split <;> rfl
    · rw [if_neg h3]
      by_cases h4 : isMtCode ev.code = true ∧ hasMtSlots dev = true
      · rw [if_pos h4]; split <;> rfl
      · rw [if_neg h4]
        show (if c = ev.code then { dev.absInfo c with value := ev.value }
          else dev.absInfo c) = dev.absInfo c
        rw [if_neg (fun hh => h ⟨h2, hh.symm⟩)]
  · rw [processEvent_absInfo_of_type dev ev h2]

/-- A non-MT absolute axis event writes the axis value and only the
value. -/
theorem processEvent_absInfo_set (dev : Device) (ev : InputEvent)
    (ht : ev.type = EV_ABS) (hmt : isMtCode ev.code = false) :
    (processEvent dev ev).absInfo ev.code =
      { dev.absInfo ev.code with value := ev.value } := by
  unfold processEvent
  rw [if_neg (fun hh : ev.type = EV_SYN => by rw [ht] at hh; exact absurd hh (by decide)),
    if_pos ht,
    if_neg (fun hh : ev.code = ABS_MT_SLOT ∧ _ => by
      rw [hh.1] at hmt; exact absurd hmt (by decide)),
    if_neg (fun hh : isMtCode ev.code = true ∧ _ => by simp [hmt] at hh)]
  show (if ev.code = ev.code then { dev.absInfo ev.code with value := ev.value }
    else dev.absInfo ev.code) = _
  rw [if_pos rfl]

theorem foldl_absInfo_of_type (evs : List InputEvent) :
    ∀ dev : Device, (∀ e ∈ evs, e.type ≠ EV_ABS) →
      (evs.foldl processEvent dev).absInfo = dev.absInfo := by
  induction evs with
  | nil => intro dev _; rfl
  | cons e rest ih =>
    intro dev h
    rw [List.foldl_cons, ih _ (fun x hx => h x (List.mem_cons_of_mem _ hx)),
      processEvent_absInfo_of_type dev e (h e (List.mem_cons_self _ _))]

theorem foldl_absInfo_mt (evs : List InputEvent) :
    ∀ dev : Device, hasMtSlots dev = true → (∀ e ∈ evs, isMtCode e.code = true) →
      (evs.foldl processEvent dev).absInfo = dev.absInfo := by
  induction evs with
  | nil => intro dev _ _; rfl
  | cons e rest ih =>
    intro dev hm h
    rw [List.foldl_cons,
      ih _ ((processEvent_hasMtSlots dev e).trans hm)
        (fun x hx => h x (List.mem_cons_of_mem _ hx)),
      processEvent_absInfo_mt dev e hm (h e (List.mem_cons_self _ _))]

/-- Folding a list of non-MT absolute axis events whose values are a
function of the code. -/
theorem foldl_absInfo_fun (f : Nat → Int) (evs : List InputEvent) :
    ∀ dev : Device,
      (∀ e ∈ evs, e.type = EV_ABS ∧ isMtCode e.code = false ∧ e.value = f e.code) →
      ∀ c, ((evs.foldl processEvent dev).absInfo c).value =
        if ∃ e ∈ evs, e.code = c then f c else (dev.absInfo c).value := by
  induction evs with
  | nil => intro dev _ c; simp
  | cons e rest ih =>
    intro dev h c
    obtain ⟨het, hemt, hev⟩ := h e (List.mem_cons_self _ _)
    rw [List.foldl_cons, ih _ (fun x hx => h x (List.mem_cons_of_mem _ hx))]
    by_cases hr : ∃ x ∈ rest, x.code = c
    · rw [if_pos hr, if_pos (hr.imp (fun x hx => ⟨List.mem_cons_of_mem _ hx.1, hx.2⟩))]
    · rw [if_neg hr]
      by_cases he : e.code = c
      · have hset : ((processEvent dev e).absInfo c).value = e.value := by
          rw [← he, processEvent_absInfo_set dev e het hemt]
        rw [if_pos ⟨e, List.mem_cons_self _ _, he⟩, hset, hev, he]
      · have hcond : ¬∃ x ∈ e :: rest, x.code = c := by
          rintro ⟨x, hx, h2⟩
          rcases List.mem_cons.mp hx with hx | hx
          · exact he (hx ▸ h2)
          · exact hr ⟨x, hx, h2⟩
        rw [if_neg hcond,
          processEvent_absInfo_frame dev e c (fun hh => he hh.2)]

theorem processEvent_mtValues_frame (dev : Device) (ev : InputEvent)
    (h : ¬(ev.type = EV_ABS ∧ isMtCode ev.code = true)) :
    (processEvent dev ev).mtValues = dev.mtValues := by
  unfold processEvent
  by_cases h1 : ev.type = EV_SYN
  · rw [if_pos h1]
  · rw [if_neg h1]
    by_cases h2 : ev.type = EV_ABS
    · rw [if_pos h2]
      rw [if_neg (fun hh : ev.code = ABS_MT_SLOT ∧ _ => h ⟨h2, by rw [hh.1]; decide⟩),
        if_neg (fun hh : isMtCode ev.code = true ∧ _ => h ⟨h2, hh.1⟩)]
    · rw [if_neg h2]

theorem foldl_mtValues_frame (evs : List InputEvent) :
    ∀ dev : Device, (∀ e ∈ evs, ¬(e.type = EV_ABS ∧ isMtCode e.code = true)) →
      (evs.foldl processEvent dev).mtValues = dev.mtValues := by
  induction evs with
  | nil => intro dev _; rfl
  | cons e rest ih =>
    intro dev h
    rw [List.foldl_cons, ih _ (fun x hx => h x (List.mem_cons_of_mem _ hx)),
      processEvent_mtValues_frame dev e (h e (List.mem_cons_self _ _))]

theorem processEvent_currentSlot_frame (dev : Device) (ev : InputEvent)
    (h : ¬(ev.type = EV_ABS ∧ ev.code = ABS_MT_SLOT)) :
    (processEvent dev ev).currentSlot = dev.currentSlot := by
  unfold processEvent
  by_cases h1 : ev.type = EV_SYN
  · rw [if_pos h1]
  · rw [if_neg h1]
    by_cases h2 : ev.type = EV_ABS
    · rw [if_pos h2, if_neg (fun hh : ev.code = ABS_MT_SLOT ∧ _ => h ⟨h2, hh.1⟩)]
      split
      · split <;> rfl
      · rfl
    · rw [if_neg h2]

theorem foldl_currentSlot_frame (evs : List InputEvent) :
    ∀ dev : Device, (∀ e ∈ evs, ¬(e.type = EV_ABS ∧ e.code = ABS_MT_SLOT)) →
      (evs.foldl processEvent dev).currentSlot = dev.currentSlot := by
  induction evs with
  | nil => intro dev _; rfl
  | cons e rest ih =>
    intro dev h
    rw [List.foldl_cons, ih _ (fun x hx => h x (List.mem_cons_of_mem _ hx)),
      processEvent_currentSlot_frame dev e (h e (List.mem_cons_self _ _))]

/-! ## Characterizing the synthesized segments -/

/-- The generic shape of the key/LED/switch/axis diff segments: an event
is in the segment iff its code is a supported code whose cached value
differs from the target, and it carries the target value. -/
theorem mem_filterMap_diff (t : Nat) (codes : List Nat) (cur target : Nat → Int)
    (e : InputEvent) :
    (e ∈ codes.filterMap (fun c =>
        if cur c ≠ target c then some ⟨t, c, target c⟩ else none)) ↔
      e.type = t ∧ e.code ∈ codes ∧ cur e.code ≠ target e.code ∧
        e.value = target e.code := by
  rw [List.mem_filterMap]
  constructor
  · rintro ⟨c, hc, hsome⟩
    split at hsome
    · next hne =>
      cases hsome
      exact ⟨rfl, hc, hne, rfl⟩
    · cases hsome
  · rintro ⟨h1, h2, h3, h4⟩
    refine ⟨e.code, h2, ?_⟩
    rw [if_pos h3]
    cases e
    simp_all

theorem exists_code_filterMap_diff (t : Nat) (codes : List Nat)
    (cur target : Nat → Int) (c : Nat) :
    (∃ e ∈ codes.filterMap (fun c2 =>
        if cur c2 ≠ target c2 then some (InputEvent.mk t c2 (target c2)) else none),
      e.code = c) ↔
      c ∈ codes ∧ cur c ≠ target c := by
  constructor
  · rintro ⟨e, he, hc⟩
    obtain ⟨_, h2, h3, _⟩ := (mem_filterMap_diff t codes cur target e).mp he
    exact ⟨hc ▸ h2, hc ▸ h3⟩
  · rintro ⟨h1, h2⟩
    exact ⟨InputEvent.mk t c (target c), (mem_filterMap_diff t codes cur target _).mpr
      ⟨rfl, h1, h2, rfl⟩, rfl⟩

/-- An MT-code event on a device with a slot table and a valid current
slot writes the current slot's cell for that code. -/
theorem processEvent_mt_set (dev : Device) (ev : InputEvent)
    (hm : hasMtSlots dev = true) (ht : ev.type = EV_ABS)
    (hmt : isMtCode ev.code = true) (hns : ev.code ≠ ABS_MT_SLOT)
    (hlt : dev.currentSlot < dev.numSlots) (s2 c : Nat) :
    (processEvent dev ev).mtValues s2 c =
      if s2 = dev.currentSlot ∧ c = ev.code then ev.value
      else dev.mtValues s2 c := by
  unfold processEvent
  rw [if_neg (fun hh : ev.type = EV_SYN => absurd (ht.symm.trans hh) (by decide)),
    if_pos ht, if_neg (fun hh : ev.code = ABS_MT_SLOT ∧ _ => hns hh.1),
    if_pos ⟨hmt, hm⟩, if_pos hlt]

/-- A valid `ABS_MT_SLOT` event on a device with a slot table moves the
current slot and changes nothing else. -/
theorem processEvent_slot_set (d : Device) (ev : InputEvent) (s : Nat)
    (hm : hasMtSlots d = true) (hlt : s < d.numSlots)
    (ht : ev.type = EV_ABS) (hc : ev.code = ABS_MT_SLOT) (hv : ev.value = (s : Int)) :
    (processEvent d ev).currentSlot = s ∧
    (processEvent d ev).mtValues = d.mtValues ∧
    (processEvent d ev).values = d.values ∧
    (processEvent d ev).absInfo = d.absInfo := by
  unfold processEvent
  rw [if_neg (fun hh : ev.type = EV_SYN => absurd (ht.symm.trans hh) (by decide)),
    if_pos ht, if_pos ⟨hc, hm⟩, if_pos (by rw [hv]; exact Int.natCast_nonneg s)]
  refine ⟨?_, rfl, rfl, rfl⟩
  show min ev.value.toNat (d.numSlots - 1) = s
  rw [hv, Int.toNat_natCast]
  exact Nat.min_eq_left (Nat.le_pred_of_lt hlt)

/-- Folding a run of MT-code events for one slot, with values a function
of the code: the slot row picks up the function's values on the written
codes, everything else is untouched, and the current slot stays put. -/
theorem foldl_mt_fun (s : Nat) (f : Nat → Int) (evs : List InputEvent) :
    ∀ dev : Device, hasMtSlots dev = true → dev.currentSlot = s →
      s < dev.numSlots →
      (∀ e ∈ evs, e.type = EV_ABS ∧ isMtCode e.code = true ∧
        e.code ≠ ABS_MT_SLOT ∧ e.value = f e.code) →
      ∀ s2 c, (evs.foldl processEvent dev).mtValues s2 c =
        if s2 = s ∧ ∃ e ∈ evs, e.code = c then f c else dev.mtValues s2 c := by
  induction evs with
  | nil => intro dev _ _ _ _ s2 c; simp
  | cons e rest ih =>
    intro dev hm hcs hlt h s2 c
    obtain ⟨het, hemt, hens, hev⟩ := h e (List.mem_cons_self _ _)
    have hm1 : hasMtSlots (processEvent dev e) = true :=
      (processEvent_hasMtSlots dev e).trans hm
    have hcs1 : (processEvent dev e).currentSlot = s :=
      (processEvent_currentSlot_frame dev e (fun hh => hens hh.2)).trans hcs
    have hlt1 : s < (processEvent dev e).numSlots := by
      rw [processEvent_numSlots]; exact hlt
    have hstep := processEvent_mt_set dev e hm het hemt hens (hcs ▸ hlt) s2 c
    rw [List.foldl_cons,
      ih _ hm1 hcs1 hlt1 (fun x hx => h x (List.mem_cons_of_mem _ hx))]
    by_cases hr : s2 = s ∧ ∃ x ∈ rest, x.code = c
    · rw [if_pos hr, if_pos ⟨hr.1, hr.2.imp (fun x hx =>
        ⟨List.mem_cons_of_mem _ hx.1, hx.2⟩)⟩]
    · rw [if_neg hr, hstep]
      by_cases he : s2 = s ∧ e.code = c
      · rw [if_pos ⟨he.1.trans hcs.symm, he.2.symm⟩,
          if_pos ⟨he.1, ⟨e, List.mem_cons_self _ _, he.2⟩⟩, hev, he.2]
      · have hcond : ¬(s2 = s ∧ ∃ x ∈ e :: rest, x.code = c) := by
          rintro ⟨h1, x, hx, h2⟩
          rcases List.mem_cons.mp hx with hx | hx
          · exact he ⟨h1, hx ▸ h2⟩
          · exact hr ⟨h1, x, hx, h2⟩
        rw [if_neg hcond, if_neg]
        rintro ⟨h1, h2⟩
        exact hcond ⟨h1.trans hcs, e, List.mem_cons_self _ _, h2.symm⟩

/-! ## Membership in the supported-code lists and synthesized segments -/

theorem mem_keyCodes (dev : Device) (c : Nat) :
    c ∈ keyCodes dev ↔
      c < KEY_MAX + 1 ∧ libevdev_has_event_code dev EV_KEY c = true := by
  simp [keyCodes, List.mem_filter, List.mem_range]

theorem mem_ledCodes (dev : Device) (c : Nat) :
    c ∈ ledCodes dev ↔
      c < LED_MAX + 1 ∧ libevdev_has_event_code dev EV_LED c = true := by
  simp [ledCodes, List.mem_filter, List.mem_range]

theorem mem_swCodes (dev : Device) (c : Nat) :
    c ∈ swCodes dev ↔
      c < SW_MAX + 1 ∧ libevdev_has_event_code dev EV_SW c = true := by
  simp [swCodes, List.mem_filter, List.mem_range]

theorem mem_absAxisCodes (dev : Device) (c : Nat) :
    c ∈ absAxisCodes dev ↔
      c < ABS_MAX + 1 ∧ libevdev_has_event_code dev EV_ABS c = true ∧
        isMtCode c = false := by
  simp [absAxisCodes, List.mem_filter, List.mem_range, Bool.and_eq_true,
    Bool.not_eq_true', and_assoc]

theorem mem_mtAxisCodes (dev : Device) (c : Nat) :
    c ∈ mtAxisCodes dev ↔
      c < ABS_MAX + 1 ∧ libevdev_has_event_code dev EV_ABS c = true ∧
        isMtCode c = true ∧ c ≠ ABS_MT_SLOT := by
  simp [mtAxisCodes, List.mem_filter, List.mem_range, Bool.and_eq_true, and_assoc]

theorem mem_changedMtCodes (dev : Device) (snap : Snapshot) (s c : Nat) :
    c ∈ changedMtCodes dev snap s ↔
      c ∈ mtAxisCodes dev ∧ dev.mtValues s c ≠ snap.mt s c := by
  simp [changedMtCodes, List.mem_filter]

theorem mem_orderedMtCodes (dev : Device) (snap : Snapshot) (s c : Nat) :
    c ∈ orderedMtCodes dev snap s ↔ c ∈ changedMtCodes dev snap s := by
  unfold orderedMtCodes
  split
  · next hT =>
    split
    · simp only [List.mem_append, List.mem_filter, List.mem_singleton,
        decide_eq_true_eq]
      constructor
      · rintro (⟨hc, _⟩ | rfl)
        · exact hc
        · exact hT
      · intro hc
        by_cases hct : c = ABS_MT_TRACKING_ID
        · exact Or.inr hct
        · exact Or.inl ⟨hc, hct⟩
    · split
      · simp only [List.mem_cons, List.mem_filter, decide_eq_true_eq]
        constructor
        · rintro (rfl | ⟨hc, _⟩)
          · exact hT
          · exact hc
        · intro hc
          by_cases hct : c = ABS_MT_TRACKING_ID
          · exact Or.inl hct
          · exact Or.inr ⟨hc, hct⟩
      · exact Iff.rfl
  · exact Iff.rfl

/-- Every event of a slot's sync segment is an absolute event with a code
in the MT range. -/
theorem syncSlotEvents_shape (dev : Device) (snap : Snapshot) (s : Nat) :
    ∀ e ∈ syncSlotEvents dev snap s, e.type = EV_ABS ∧ isMtCode e.code = true := by
  intro e he
  unfold syncSlotEvents at he
  split at he
  · exact absurd he (List.not_mem_nil e)
  · rcases List.mem_cons.mp he with rfl | he2
    · exact ⟨rfl, by show isMtCode ABS_MT_SLOT = true; decide⟩
    · obtain ⟨c, hc, rfl⟩ := List.mem_map.mp he2
      have hax := (mem_mtAxisCodes dev c).mp
        ((mem_changedMtCodes dev snap s c).mp
          ((mem_orderedMtCodes dev snap s c).mp hc)).1
      exact ⟨rfl, hax.2.2.1⟩

/-- Every event of the MT sync segment is an absolute event with a code
in the MT range. -/
theorem syncMtEvents_shape (dev : Device) (snap : Snapshot) :
    ∀ e ∈ syncMtEvents dev snap, e.type = EV_ABS ∧ isMtCode e.code = true := by
  intro e he
  unfold syncMtEvents at he
  split at he
  · rw [List.mem_flatten] at he
    obtain ⟨l, hl, hel⟩ := he
    obtain ⟨s, _, rfl⟩ := List.mem_map.mp hl
    exact syncSlotEvents_shape dev snap s e hel
  · exact absurd he (List.not_mem_nil e)

/-- The effect of one slot's sync segment: the slot row converges on the
snapshot for its changed codes and nothing else moves (other than the
current slot, which lands on `s` when the segment is non-empty). -/
theorem foldl_slotSeg (dev : Device) (snap : Snapshot) (s : Nat) (d : Device)
    (htb : d.typeBits = dev.typeBits) (hcb : d.codeBits = dev.codeBits)
    (hns : d.numSlots = dev.numSlots)
    (hm : hasMtSlots dev = true) (hs : s < min dev.numSlots MAX_SLOTS) :
    (∀ s2 c, ((syncSlotEvents dev snap s).foldl processEvent d).mtValues s2 c =
      if s2 = s ∧ c ∈ changedMtCodes dev snap s then snap.mt s c
      else d.mtValues s2 c) ∧
    ((syncSlotEvents dev snap s).foldl processEvent d).values = d.values ∧
    ((syncSlotEvents dev snap s).foldl processEvent d).absInfo = d.absInfo := by
  have hmd : hasMtSlots d = true := by
    unfold hasMtSlots libevdev_has_event_code libevdev_has_event_type at hm ⊢
    rw [htb, hcb]; exact hm
  have hsd : s < d.numSlots := by
    rw [hns]; exact lt_of_lt_of_le hs (min_le_left _ _)
  unfold syncSlotEvents
  split
  · next hch =>
    refine ⟨?_, rfl, rfl⟩
    intro s2 c
    rw [if_neg (by rintro ⟨_, hc⟩; rw [hch] at hc; exact absurd hc (List.not_mem_nil c))]
    rfl
  · next hch =>
    obtain ⟨hc1, hc2, hc3, hc4⟩ :=
      processEvent_slot_set d ⟨EV_ABS, ABS_MT_SLOT, (s : Int)⟩ s hmd hsd rfl rfl rfl
    rw [List.foldl_cons]
    have hm1 : hasMtSlots (processEvent d ⟨EV_ABS, ABS_MT_SLOT, (s : Int)⟩) = true :=
      (processEvent_hasMtSlots d _).trans hmd
    have hlt1 : s < (processEvent d ⟨EV_ABS, ABS_MT_SLOT, (s : Int)⟩).numSlots := by
      rw [processEvent_numSlots]; exact hsd
    have hall : ∀ e ∈ (orderedMtCodes dev snap s).map
        (fun c => InputEvent.mk EV_ABS c (snap.mt s c)),
        e.type = EV_ABS ∧ isMtCode e.code = true ∧ e.code ≠ ABS_MT_SLOT ∧
          e.value = snap.mt s e.code := by
      intro e he
      obtain ⟨c, hc, rfl⟩ := List.mem_map.mp he
      have hax := (mem_mtAxisCodes dev c).mp
        ((mem_changedMtCodes dev snap s c).mp
          ((mem_orderedMtCodes dev snap s c).mp hc)).1
      exact ⟨rfl, hax.2.2.1, hax.2.2.2, rfl⟩
    have hmem : ∀ c, (∃ e ∈ (orderedMtCodes dev snap s).map
        (fun c2 => InputEvent.mk EV_ABS c2 (snap.mt s c2)), e.code = c) ↔
        c ∈ changedMtCodes dev snap s := by
      intro c
      constructor
      · rintro ⟨e, he, rfl⟩
        obtain ⟨c2, hc2, rfl⟩ := List.mem_map.mp he
        exact (mem_orderedMtCodes dev snap s c2).mp hc2
      · intro hc
        exact ⟨InputEvent.mk EV_ABS c (snap.mt s c),
          List.mem_map.mpr ⟨c, (mem_orderedMtCodes dev snap s c).mpr hc, rfl⟩, rfl⟩
    have hfold := foldl_mt_fun s (snap.mt s) _ _ hm1 hc1 hlt1 hall
    have htypes : ∀ e ∈ (orderedMtCodes dev snap s).map
        (fun c => InputEvent.mk EV_ABS c (snap.mt s c)), isMtCode e.code = true :=
      fun e he => (hall e he).2.1
    refine ⟨?_, ?_, ?_⟩
    · intro s2 c
      rw [hfold s2 c]
      by_cases hcond : s2 = s ∧ c ∈ changedMtCodes dev snap s
      · rw [if_pos ⟨hcond.1, (hmem c).mpr hcond.2⟩, if_pos hcond]
      · rw [if_neg (fun hh => hcond ⟨hh.1, (hmem c).mp hh.2⟩), if_neg hcond]
        show (processEvent d _).mtValues s2 c = d.mtValues s2 c
        rw [hc2]
    · funext t c
      rw [foldl_values_frame _ _ _ _ (fun e he => by
        rintro ⟨h1, _, _, h4⟩
        exact h4 ((hall e he).1 ▸ h1.symm ▸ rfl))]
      show (processEvent d _).values t c = d.values t c
      rw [hc3]
    · rw [foldl_absInfo_mt _ _ hm1 htypes]
      exact hc4

/-- The effect of the whole capped per-slot sweep. -/
theorem foldl_mtSegs (dev : Device) (snap : Snapshot) (slots : List Nat) :
    ∀ d : Device,
      d.typeBits = dev.typeBits → d.codeBits = dev.codeBits →
      d.numSlots = dev.numSlots →
      hasMtSlots dev = true → (∀ s ∈ slots, s < min dev.numSlots MAX_SLOTS) →
      (∀ s2 c, (((slots.map (syncSlotEvents dev snap)).flatten).foldl
          processEvent d).mtValues s2 c =
        if s2 ∈ slots ∧ c ∈ changedMtCodes dev snap s2 then snap.mt s2 c
        else d.mtValues s2 c) ∧
      (((slots.map (syncSlotEvents dev snap)).flatten).foldl
          processEvent d).values = d.values ∧
      (((slots.map (syncSlotEvents dev snap)).flatten).foldl
          processEvent d).absInfo = d.absInfo := by
  induction slots with
  | nil =>
    intro d _ _ _ _ _
    refine ⟨fun s2 c => ?_, rfl, rfl⟩
    rw [if_neg (by rintro ⟨hh, _⟩; exact absurd hh (List.not_mem_nil s2))]
    rfl
  | cons s rest ih =>
    intro d htb hcb hns hm hall
    rw [List.map_cons, List.flatten_cons, List.foldl_append]
    obtain ⟨hseg1, hseg2, hseg3⟩ :=
      foldl_slotSeg dev snap s d htb hcb hns hm (hall s (List.mem_cons_self _ _))
    have htb1 := (foldl_typeBits (syncSlotEvents dev snap s) d).trans htb
    have hcb1 := (foldl_codeBits (syncSlotEvents dev snap s) d).trans hcb
    have hns1 := (foldl_numSlots (syncSlotEvents dev snap s) d).trans hns
    obtain ⟨hrec1, hrec2, hrec3⟩ := ih _ htb1 hcb1 hns1 hm
      (fun x hx => hall x (List.mem_cons_of_mem _ hx))
    refine ⟨?_, hrec2.trans hseg2, hrec3.trans hseg3⟩
    intro s2 c
    rw [hrec1 s2 c]
    by_cases hr : s2 ∈ rest ∧ c ∈ changedMtCodes dev snap s2
    · rw [if_pos hr, if_pos ⟨List.mem_cons_of_mem _ hr.1, hr.2⟩]
    · rw [if_neg hr, hseg1 s2 c]
      by_cases he : s2 = s ∧ c ∈ changedMtCodes dev snap s
      · rw [if_pos he, if_pos ⟨he.1 ▸ List.mem_cons_self _ _, he.1 ▸ he.2⟩, he.1]
      · rw [if_neg he, if_neg]
        rintro ⟨h1, h2⟩
        rcases List.mem_cons.mp h1 with rfl | h1
        · exact he ⟨rfl, h2⟩
        · exact hr ⟨h1, h2⟩

theorem syncKeyEvents_shape (dev : Device) (snap : Snapshot) :
    ∀ e ∈ syncKeyEvents dev snap,
      e.type = EV_KEY ∧ e.value = bitValue (snap.keys e.code) := by
  intro e he
  unfold syncKeyEvents at he
  have h2 := (mem_filterMap_diff EV_KEY (keyCodes dev)
    (fun c => dev.values EV_KEY c) (fun c => bitValue (snap.keys c)) e).mp he
  exact ⟨h2.1, h2.2.2.2⟩

theorem syncLedEvents_shape (dev : Device) (snap : Snapshot) :
    ∀ e ∈ syncLedEvents dev snap,
      e.type = EV_LED ∧ e.value = bitValue (snap.leds e.code) := by
  intro e he
  unfold syncLedEvents at he
  have h2 := (mem_filterMap_diff EV_LED (ledCodes dev)
    (fun c => dev.values EV_LED c) (fun c => bitValue (snap.leds c)) e).mp he
  exact ⟨h2.1, h2.2.2.2⟩

theorem syncSwEvents_shape (dev : Device) (snap : Snapshot) :
    ∀ e ∈ syncSwEvents dev snap,
      e.type = EV_SW ∧ e.value = bitValue (snap.sws e.code) := by
  intro e he
  unfold syncSwEvents at he
  have h2 := (mem_filterMap_diff EV_SW (swCodes dev)
    (fun c => dev.values EV_SW c) (fun c => bitValue (snap.sws c)) e).mp he
  exact ⟨h2.1, h2.2.2.2⟩

theorem syncAbsEvents_shape (dev : Device) (snap : Snapshot) :
    ∀ e ∈ syncAbsEvents dev snap,
      e.type = EV_ABS ∧ isMtCode e.code = false ∧ e.value = snap.absVals e.code := by
  intro e he
  unfold syncAbsEvents at he
  have h2 := (mem_filterMap_diff EV_ABS (absAxisCodes dev)
    (fun c => (dev.absInfo c).value) (fun c => snap.absVals c) e).mp he
  exact ⟨h2.1, ((mem_absAxisCodes dev e.code).mp h2.2.1).2.2, h2.2.2.2⟩

/-- Draining the synthesized sync delta drives every value component of
the shadow state onto the kernel snapshot: the computational core of the
sync-correctness property. -/
theorem sync_foldl_agrees (dev : Device) (snap : Snapshot) :
    agreesValues ((syncEvents dev snap).foldl processEvent dev) snap := by
  have hallK := syncKeyEvents_shape dev snap
  have hallL := syncLedEvents_shape dev snap
  have hallS := syncSwEvents_shape dev snap
  have hallA := syncAbsEvents_shape dev snap
  have hsplit : (syncEvents dev snap).foldl processEvent dev =
      [synReportEvent].foldl processEvent
        ((syncMtEvents dev snap).foldl processEvent
          ((syncAbsEvents dev snap).foldl processEvent
            ((syncSwEvents dev snap).foldl processEvent
              ((syncLedEvents dev snap).foldl processEvent
                ((syncKeyEvents dev snap).foldl processEvent dev))))) := by
    unfold syncEvents
    rw [List.foldl_append, List.foldl_append, List.foldl_append, List.foldl_append,
      List.foldl_append]
  rw [hsplit, List.foldl_cons, List.foldl_nil, processEvent_syn _ synReportEvent rfl]
  set d1 := (syncKeyEvents dev snap).foldl processEvent dev with hd1
  set d2 := (syncLedEvents dev snap).foldl processEvent d1 with hd2
  set d3 := (syncSwEvents dev snap).foldl processEvent d2 with hd3
  set d4 := (syncAbsEvents dev snap).foldl processEvent d3 with hd4
  set d5 := (syncMtEvents dev snap).foldl processEvent d4 with hd5
  have htb4 : d4.typeBits = dev.typeBits := by
    rw [hd4, foldl_typeBits, hd3, foldl_typeBits, hd2, foldl_typeBits, hd1,
      foldl_typeBits]
  have hcb4 : d4.codeBits = dev.codeBits := by
    rw [hd4, foldl_codeBits, hd3, foldl_codeBits, hd2, foldl_codeBits, hd1,
      foldl_codeBits]
  have hns4 : d4.numSlots = dev.numSlots := by
    rw [hd4, foldl_numSlots, hd3, foldl_numSlots, hd2, foldl_numSlots, hd1,
      foldl_numSlots]
  have hcode5 : ∀ t c, libevdev_has_event_code d5 t c =
      libevdev_has_event_code dev t c := by
    intro t c
    unfold libevdev_has_event_code libevdev_has_event_type
    rw [hd5, foldl_typeBits, foldl_codeBits, htb4, hcb4]
  have hns5 : d5.numSlots = dev.numSlots := by
    rw [hd5, foldl_numSlots, hns4]
  have hmt5 : hasMtSlots d5 = hasMtSlots dev := hcode5 EV_ABS ABS_MT_SLOT
  -- the MT segment does not touch the value store
  have hvalsM : ∀ t c, d5.values t c = d4.values t c := by
    intro t c
    rw [hd5]
    refine foldl_values_frame _ _ _ _ (fun e he => ?_)
    rintro ⟨h1, _, _, h4⟩
    exact h4 (h1.symm.trans (syncMtEvents_shape dev snap e he).1)
  -- the abs segment does not touch the value store
  have hvalsA : ∀ t c, d4.values t c = d3.values t c := by
    intro t c
    rw [hd4]
    refine foldl_values_frame _ _ _ _ (fun e he => ?_)
    rintro ⟨h1, _, _, h4⟩
    exact h4 (h1.symm.trans (hallA e he).1)
  -- key/LED/switch folds leave the axis-info store alone
  have habs3 : d3.absInfo = dev.absInfo := by
    rw [hd3, foldl_absInfo_of_type _ _ (fun e he => by
        rw [(hallS e he).1]; decide),
      hd2, foldl_absInfo_of_type _ _ (fun e he => by
        rw [(hallL e he).1]; decide),
      hd1, foldl_absInfo_of_type _ _ (fun e he => by
        rw [(hallK e he).1]; decide)]
  -- key/LED/switch/abs folds leave the slot table alone
  have hmt4 : d4.mtValues = dev.mtValues := by
    rw [hd4, foldl_mtValues_frame _ _ (fun e he => by
        rintro ⟨_, h2⟩
        exact absurd ((hallA e he).2.1.symm.trans h2) (by decide)),
      hd3, foldl_mtValues_frame _ _ (fun e he => by
        rintro ⟨h1, _⟩
        exact absurd ((hallS e he).1.symm.trans h1) (by decide)),
      hd2, foldl_mtValues_frame _ _ (fun e he => by
        rintro ⟨h1, _⟩
        exact absurd ((hallL e he).1.symm.trans h1) (by decide)),
      hd1, foldl_mtValues_frame _ _ (fun e he => by
        rintro ⟨h1, _⟩
        exact absurd ((hallK e he).1.symm.trans h1) (by decide))]
  refine ⟨?_, ?_, ?_, ?_, ?_⟩
  · -- keys
    intro c hc hsup
    rw [hcode5] at hsup
    rw [hvalsM, hvalsA]
    rw [hd3, foldl_values_fun EV_SW (fun c2 => bitValue (snap.sws c2))
      (by decide) (by decide) _ _ hallS EV_KEY c,
      if_neg (by rintro ⟨h1, _⟩; exact absurd h1 (by decide))]
    rw [hd2, foldl_values_fun EV_LED (fun c2 => bitValue (snap.leds c2))
      (by decide) (by decide) _ _ hallL EV_KEY c,
      if_neg (by rintro ⟨h1, _⟩; exact absurd h1 (by decide))]
    rw [hd1, foldl_values_fun EV_KEY (fun c2 => bitValue (snap.keys c2))
      (by decide) (by decide) _ _ hallK EV_KEY c]
    by_cases hdiff : dev.values EV_KEY c = bitValue (snap.keys c)
    · rw [if_neg, hdiff]
      rintro ⟨_, hex⟩
      exact ((exists_code_filterMap_diff EV_KEY (keyCodes dev)
        (fun c2 => dev.values EV_KEY c2)
        (fun c2 => bitValue (snap.keys c2)) c).mp hex).2 hdiff
    · rw [if_pos ⟨rfl, (exists_code_filterMap_diff EV_KEY (keyCodes dev)
        (fun c2 => dev.values EV_KEY c2)
        (fun c2 => bitValue (snap.keys c2)) c).mpr
        ⟨(mem_keyCodes dev c).mpr ⟨hc, hsup⟩, hdiff⟩⟩]
  · -- LEDs
    intro c hc hsup
    rw [hcode5] at hsup
    rw [hvalsM, hvalsA]
    rw [hd3, foldl_values_fun EV_SW (fun c2 => bitValue (snap.sws c2))
      (by decide) (by decide) _ _ hallS EV_LED c,
      if_neg (by rintro ⟨h1, _⟩; exact absurd h1 (by decide))]
    rw [hd2, foldl_values_fun EV_LED (fun c2 => bitValue (snap.leds c2))
      (by decide) (by decide) _ _ hallL EV_LED c]
    have hpass : d1.values EV_LED c = dev.values EV_LED c := by
      rw [hd1, foldl_values_fun EV_KEY (fun c2 => bitValue (snap.keys c2))
        (by decide) (by decide) _ _ hallK EV_LED c,
        if_neg (by rintro ⟨h1, _⟩; exact absurd h1 (by decide))]
    by_cases hdiff : dev.values EV_LED c = bitValue (snap.leds c)
    · rw [if_neg, hpass, hdiff]
      rintro ⟨_, hex⟩
      exact ((exists_code_filterMap_diff EV_LED (ledCodes dev)
        (fun c2 => dev.values EV_LED c2)
        (fun c2 => bitValue (snap.leds c2)) c).mp hex).2 hdiff
    · rw [if_pos ⟨rfl, (exists_code_filterMap_diff EV_LED (ledCodes dev)
        (fun c2 => dev.values EV_LED c2)
        (fun c2 => bitValue (snap.leds c2)) c).mpr
        ⟨(mem_ledCodes dev c).mpr ⟨hc, hsup⟩, hdiff⟩⟩]
  · -- switches
    intro c hc hsup
    rw [hcode5] at hsup
    rw [hvalsM, hvalsA]
    rw [hd3, foldl_values_fun EV_SW (fun c2 => bitValue (snap.sws c2))
      (by decide) (by decide) _ _ hallS EV_SW c]
    have hpass : d2.values EV_SW c = dev.values EV_SW c := by
      rw [hd2, foldl_values_fun EV_LED (fun c2 => bitValue (snap.leds c2))
        (by decide) (by decide) _ _ hallL EV_SW c,
        if_neg (by rintro ⟨h1, _⟩; exact absurd h1 (by decide)),
        hd1, foldl_values_fun EV_KEY (fun c2 => bitValue (snap.keys c2))
        (by decide) (by decide) _ _ hallK EV_SW c,
        if_neg (by rintro ⟨h1, _⟩; exact absurd h1 (by decide))]
    by_cases hdiff : dev.values EV_SW c = bitValue (snap.sws c)
    · rw [if_neg, hpass, hdiff]
      rintro ⟨_, hex⟩
      exact ((exists_code_filterMap_diff EV_SW (swCodes dev)
        (fun c2 => dev.values EV_SW c2)
        (fun c2 => bitValue (snap.sws c2)) c).mp hex).2 hdiff
    · rw [if_pos ⟨rfl, (exists_code_filterMap_diff EV_SW (swCodes dev)
        (fun c2 => dev.values EV_SW c2)
        (fun c2 => bitValue (snap.sws c2)) c).mpr
        ⟨(mem_swCodes dev c).mpr ⟨hc, hsup⟩, hdiff⟩⟩]
  · -- non-MT absolute axes
    intro c hc hsup hmtc
    rw [hcode5] at hsup
    have habs5 : d5.absInfo c = d4.absInfo c := by
      rw [hd5]
      unfold syncMtEvents
      by_cases hm : hasMtSlots dev = true
      · rw [if_pos hm]
        have hm4 : hasMtSlots d4 = true := by
          unfold hasMtSlots libevdev_has_event_code libevdev_has_event_type at hm ⊢
          rw [htb4, hcb4]; exact hm
        rw [foldl_absInfo_mt _ _ hm4 (fun e he => (syncMtEvents_shape dev snap e
          (by rw [syncMtEvents, if_pos hm]; exact he)).2)]
      · rw [if_neg hm, List.foldl_nil]
    rw [habs5]
    rw [hd4, foldl_absInfo_fun (fun c2 => snap.absVals c2) _ _ hallA c]
    by_cases hdiff : (dev.absInfo c).value = snap.absVals c
    · have hnoev : ¬∃ e ∈ syncAbsEvents dev snap, e.code = c := by
        intro hex
        exact ((exists_code_filterMap_diff EV_ABS (absAxisCodes dev)
          (fun c2 => (dev.absInfo c2).value)
          (fun c2 => snap.absVals c2) c).mp hex).2 hdiff
      rw [if_neg hnoev, habs3, hdiff]
    · have hev : ∃ e ∈ syncAbsEvents dev snap, e.code = c :=
        (exists_code_filterMap_diff EV_ABS (absAxisCodes dev)
          (fun c2 => (dev.absInfo c2).value)
          (fun c2 => snap.absVals c2) c).mpr
          ⟨(mem_absAxisCodes dev c).mpr ⟨hc, hsup, hmtc⟩, hdiff⟩
      rw [if_pos hev]
  · -- MT slots below the cap
    intro s hs c hc hcond
    obtain ⟨hm, hsup, hmtc, hslot⟩ := hcond
    rw [hmt5] at hm
    rw [hcode5] at hsup
    rw [hns5] at hs
    have hMdef : syncMtEvents dev snap =
        ((List.range (min dev.numSlots MAX_SLOTS)).map
          (syncSlotEvents dev snap)).flatten := by
      unfold syncMtEvents
      rw [if_pos hm]
    obtain ⟨hseg1, _, _⟩ := foldl_mtSegs dev snap
      (List.range (min dev.numSlots MAX_SLOTS)) d4 htb4 hcb4 hns4 hm
      (fun x hx => List.mem_range.mp hx)
    rw [hd5, hMdef, hseg1 s c]
    by_cases hchg : c ∈ changedMtCodes dev snap s
    · rw [if_pos ⟨List.mem_range.mpr hs, hchg⟩]
    · rw [if_neg (fun hh => hchg hh.2)]
      have hceq : dev.mtValues s c = snap.mt s c := by
        by_contra hne
        exact hchg ((mem_changedMtCodes dev snap s c).mpr
          ⟨(mem_mtAxisCodes dev c).mpr ⟨hc, hsup, hmtc, hslot⟩, hne⟩)
      rw [hmt4, hceq]

/-! ## The drain loop and its effect -/

theorem nextSync_cons (r : Reader) (e : InputEvent) (q : List InputEvent)
    (h : r.queue = e :: q) :
    nextSync r = (NextResult.sync (some e),
      { r with dev := processEvent r.dev e, queue := q }) := by
  unfold nextSync
  rw [h]

theorem nextSync_nil (r : Reader) (h : r.queue = []) :
    nextSync r = (NextResult.eagain, { r with syncing := false }) := by
  unfold nextSync
  rw [h]

theorem syncDrainGo_spec (q : List InputEvent) :
    ∀ r : Reader, r.queue = q →
      syncDrainGo q r = { r with
        dev := q.foldl processEvent r.dev,
        queue := [], syncing := false } := by
  induction q with
  | nil =>
    intro r hq
    show (nextSync r).2 = _
    rw [nextSync_nil r hq, List.foldl_nil]
    cases r
    simp_all
  | cons e q ih =>
    intro r hq
    show syncDrainGo q (nextSync r).2 = _
    rw [nextSync_cons r e q hq]
    rw [ih _ rfl]
    rw [List.foldl_cons]

/-- The documented drain loop empties the queue, leaves Normal mode, and
applies every queued event to the model in order. -/
theorem syncDrain_spec (r : Reader) :
    syncDrain r = { r with
      dev := r.queue.foldl processEvent r.dev,
      queue := [], syncing := false } :=
  syncDrainGo_spec r.queue r rfl

/-- When the shadow state already agrees with the snapshot, every diff
segment is empty and the sync delta is the lone `SYN_REPORT`. -/
theorem syncEvents_of_agrees (dev : Device) (snap : Snapshot)
    (h : agreesValues dev snap) : syncEvents dev snap = [synReportEvent] := by
  obtain ⟨hk, hl, hsw, ha, hmt⟩ := h
  have hK : syncKeyEvents dev snap = [] := by
    unfold syncKeyEvents
    rw [List.filterMap_eq_nil_iff]
    intro c hc
    obtain ⟨hlt, hsup⟩ := (mem_keyCodes dev c).mp hc
    rw [if_neg (fun hh => hh (hk c hlt hsup))]
  have hL : syncLedEvents dev snap = [] := by
    unfold syncLedEvents
    rw [List.filterMap_eq_nil_iff]
    intro c hc
    obtain ⟨hlt, hsup⟩ := (mem_ledCodes dev c).mp hc
    rw [if_neg (fun hh => hh (hl c hlt hsup))]
  have hS : syncSwEvents dev snap = [] := by
    unfold syncSwEvents
    rw [List.filterMap_eq_nil_iff]
    intro c hc
    obtain ⟨hlt, hsup⟩ := (mem_swCodes dev c).mp hc
    rw [if_neg (fun hh => hh (hsw c hlt hsup))]
  have hA : syncAbsEvents dev snap = [] := by
    unfold syncAbsEvents
    rw [List.filterMap_eq_nil_iff]
    intro c hc
    obtain ⟨hlt, hsup, hmtc⟩ := (mem_absAxisCodes dev c).mp hc
    rw [if_neg (fun hh => hh (ha c hlt hsup hmtc))]
  have hM : syncMtEvents dev snap = [] := by
    unfold syncMtEvents
    by_cases hm : hasMtSlots dev = true
    · rw [if_pos hm]
      rw [List.flatten_eq_nil_iff]
      intro l hl2
      obtain ⟨s, hsr, rfl⟩ := List.mem_map.mp hl2
      have hch : changedMtCodes dev snap s = [] := by
        unfold changedMtCodes
        rw [List.filter_eq_nil_iff]
        intro c hc
        obtain ⟨hlt, hsup, hmtc, hns⟩ := (mem_mtAxisCodes dev c).mp hc
        simp only [bne_iff_ne, ne_eq, not_not]
        exact hmt s (List.mem_range.mp hsr) c hlt ⟨hm, hsup, hmtc, hns⟩
      unfold syncSlotEvents
      rw [if_pos hch]
    · rw [if_neg hm]
  rw [syncEvents, hK, hL, hS, hA, hM]
  rfl

/-- Fast-forwarding the model to a snapshot establishes full agreement
with that snapshot. -/
theorem fastForward_agrees (dev : Device) (snap : Snapshot) :
    agreesSnapshot (fastForward dev snap) snap := by
  refine ⟨⟨?_, ?_, ?_, ?_, ?_⟩, ?_⟩
  · intro c _ _
    show (if EV_KEY = EV_KEY then bitValue (snap.keys c)
      else if EV_KEY = EV_LED then bitValue (snap.leds c)
      else if EV_KEY = EV_SW then bitValue (snap.sws c)
      else dev.values EV_KEY c) = bitValue (snap.keys c)
    rw [if_pos rfl]
  · intro c _ _
    show (if EV_LED = EV_KEY then bitValue (snap.keys c)
      else if EV_LED = EV_LED then bitValue (snap.leds c)
      else if EV_LED = EV_SW then bitValue (snap.sws c)
      else dev.values EV_LED c) = bitValue (snap.leds c)
    rw [if_neg (by decide), if_pos rfl]
  · intro c _ _
    show (if EV_SW = EV_KEY then bitValue (snap.keys c)
      else if EV_SW = EV_LED then bitValue (snap.leds c)
      else if EV_SW = EV_SW then bitValue (snap.sws c)
      else dev.values EV_SW c) = bitValue (snap.sws c)
    rw [if_neg (by decide), if_neg (by decide), if_pos rfl]
  · intro c _ _ hmtc
    show ((if isMtCode c = true then dev.absInfo c
      else { dev.absInfo c with value := snap.absVals c })).value = snap.absVals c
    rw [if_neg (fun hh => absurd (hmtc.symm.trans hh) (by decide))]
  · intro s hs c _ hcond
    show (if hasMtSlots dev = true ∧ s < min dev.numSlots MAX_SLOTS then snap.mt s c
      else dev.mtValues s c) = snap.mt s c
    exact if_pos ⟨hcond.1, hs⟩
  · intro hm
    show (if hasMtSlots dev = true then snap.currentSlot
      else dev.currentSlot) = snap.currentSlot
    exact if_pos hm

theorem processEvent_slot_clamp (dev : Device) (ev : InputEvent)
    (hm : hasMtSlots dev = true) (ht : ev.type = EV_ABS)
    (hc : ev.code = ABS_MT_SLOT) (hv : 0 ≤ ev.value) :
    (processEvent dev ev).currentSlot = min ev.value.toNat (dev.numSlots - 1) := by
  unfold processEvent
  rw [if_neg (fun hh : ev.type = EV_SYN => absurd (ht.symm.trans hh) (by decide)),
    if_pos ht, if_pos ⟨hc, hm⟩, if_pos hv]

theorem processEvent_slot_oob (dev : Device) (ev : InputEvent)
    (hm : hasMtSlots dev = true) (ht : ev.type = EV_ABS)
    (hc : ev.code = ABS_MT_SLOT) (hv : ev.value < 0) :
    processEvent dev ev = dev := by
  unfold processEvent
  rw [if_neg (fun hh : ev.type = EV_SYN => absurd (ht.symm.trans hh) (by decide)),
    if_pos ht, if_pos ⟨hc, hm⟩, if_neg (not_le.mpr hv)]

/-! ## Demo devices, snapshots and readers for the sync claims -/

/-- A two-slot multi-touch device: `EV_ABS` with `ABS_MT_SLOT`,
`ABS_MT_POSITION_X` (53) and `ABS_MT_TRACKING_ID`; cached
`slot0.POSITION_X = 100`, both tracking ids released (-1). -/
def mtDemoDevice : Device where
  typeBits := fun t => t == EV_ABS
  codeBits := fun t c => t == EV_ABS &&
    (c == ABS_MT_SLOT || c == 53 || c == ABS_MT_TRACKING_ID)
  absInfo := fun _ => ⟨0, 0, 1000, 0, 0, 0⟩
  values := fun _ _ => 0
  numSlots := 2
  mtValues := fun s c =>
    if s == 0 && c == 53 then 100
    else if c == ABS_MT_TRACKING_ID then -1 else 0
  currentSlot := 0

/-- Kernel snapshot where slot 0's X moved to 150 while the kernel's
current slot is 1. -/
def mtDemoSnapshot : Snapshot where
  keys := fun _ => false
  leds := fun _ => false
  sws := fun _ => false
  absVals := fun _ => 0
  mt := fun s c =>
    if s == 0 && c == 53 then 150
    else if c == ABS_MT_TRACKING_ID then -1 else 0
  currentSlot := 1

/-- Kernel snapshot where a touch begins in slot 1: tracking id 17 and
X 200 — the spec's MT-resync scenario. -/
def mtTouchSnapshot : Snapshot where
  keys := fun _ => false
  leds := fun _ => false
  sws := fun _ => false
  absVals := fun _ => 0
  mt := fun s c =>
    if s == 1 && c == ABS_MT_TRACKING_ID then 17
    else if s == 1 && c == 53 then 200
    else if s == 0 && c == 53 then 100
    else if c == ABS_MT_TRACKING_ID then -1 else 0
  currentSlot := 1

/-- The reader at the instant a sync has started on `dev` against kernel
snapshot `snap` — the queue carries the SyncEngine's delta. -/
def syncStartReader (dev : Device) (snap : Snapshot) : Reader where
  dev := dev
  queue := syncEvents dev snap
  syncing := true
  snap := snap

/-- Both sync entry points (`SYN_DROPPED` and forced sync) put the reader
into exactly this state. -/
theorem startSync_eq (r : Reader) (snap : Snapshot) :
    startSync r snap = syncStartReader r.dev snap := rfl

/-- All-zero kernel snapshot. -/
def zeroSnapshot : Snapshot where
  keys := fun _ => false
  leds := fun _ => false
  sws := fun _ => false
  absVals := fun _ => 0
  mt := fun _ _ => 0
  currentSlot := 0

/-- An idle reader on the small capability demo device. -/
def idleDemoReader : Reader where
  dev := capDemoDevice
  queue := []
  syncing := false
  snap := zeroSnapshot

/-- A reader caught in the middle of a sync on the MT demo device. -/
def syncingDemoReader : Reader where
  dev := mtDemoDevice
  queue := syncEvents mtDemoDevice mtDemoSnapshot
  syncing := true
  snap := mtDemoSnapshot

/-! ## Sync claims -/

/-- C1 (as stated): draining the whole sync sequence is claimed to leave
the full shadow state — current slot included — equal to the kernel
snapshot.  Counterexample: on the MT demo device only slot 0 changed, so
the drain leaves the current slot at 0 while the kernel snapshot's
current slot is 1. -/
theorem sync_drain_full_agreement_counterexample :
    ¬ agreesSnapshot
      (syncDrain (syncStartReader mtDemoDevice mtDemoSnapshot)).dev
      mtDemoSnapshot := by
  intro h
  exact absurd (h.2 (by decide)) (by decide)

/-- C1 (amended): after the caller drains the entire synthesized sync
sequence via next(SYNC) until EAGAIN, the shadow state's key/LED/switch
bits, non-MT axis values and per-slot MT values for slots below the cap
equal the kernel snapshot the SyncEngine observed; the current slot,
however, ends on the last slot the delta touched (or keeps its prior
value) rather than on the snapshot's current slot. -/
theorem sync_drain_matches_snapshot (dev : Device) (snap : Snapshot) :
    agreesValues (syncDrain (syncStartReader dev snap)).dev snap := by
  rw [syncDrain_spec]
  exact sync_foldl_agrees dev snap

/-- C5: running the sync algorithm a second time over identical kernel
state, right after a drained sync, produces a delta of length exactly 1 —
only the terminating SYN_REPORT. -/
theorem sync_idempotent (dev : Device) (snap : Snapshot) :
    syncEvents (syncDrain (syncStartReader dev snap)).dev snap =
      [synReportEvent] := by
  rw [syncDrain_spec]
  exact syncEvents_of_agrees _ snap (sync_foldl_agrees dev snap)

/-- C3: when the reader is in Sync mode with a non-empty queue and the
caller reads in normal mode, the queue is discarded and the model is
fast-forwarded to the recorded snapshot before the normal read proceeds. -/
theorem abandoned_sync_discards_and_fast_forwards (r : Reader)
    (h1 : r.syncing = true) (_h2 : r.queue ≠ []) :
    (cancelSync r).queue = [] ∧ (cancelSync r).syncing = false ∧
    agreesSnapshot (cancelSync r).dev r.snap ∧
    nextNormal r = nextNormalGo (cancelSync r) := by
  have hc : cancelSync r = ⟨fastForward r.dev r.snap, [], false, r.snap⟩ := by
    unfold cancelSync
    rw [if_pos h1]
  refine ⟨?_, ?_, ?_, rfl⟩
  · rw [hc]
  · rw [hc]
  · rw [hc]
    exact fastForward_agrees r.dev r.snap

/-- Witness for C3 on a concrete mid-sync reader. -/
theorem abandoned_sync_discards_and_fast_forwards_witness :
    (cancelSync syncingDemoReader).queue = [] ∧
    (cancelSync syncingDemoReader).syncing = false ∧
    agreesSnapshot (cancelSync syncingDemoReader).dev syncingDemoReader.snap ∧
    nextNormal syncingDemoReader = nextNormalGo (cancelSync syncingDemoReader) :=
  abandoned_sync_discards_and_fast_forwards syncingDemoReader rfl (by decide)

/-- C4: a forced sync returns the SYNC status; its delta always ends
with the terminating SYN_REPORT; and with no state difference the delta
is exactly that one event — the first next(SYNC) returns it with status
SYNC and the following call returns EAGAIN. -/
theorem force_sync_terminating_report (r : Reader) (snap : Snapshot) :
    (nextForceSync r snap).1 = NextResult.sync none ∧
    ((nextForceSync r snap).2.queue).getLast? = some synReportEvent ∧
    (agreesValues r.dev snap →
      (nextForceSync r snap).2.queue = [synReportEvent] ∧
      (nextSync (nextForceSync r snap).2).1 =
        NextResult.sync (some synReportEvent) ∧
      (nextSync (nextSync (nextForceSync r snap).2).2).1 =
        NextResult.eagain) := by
  refine ⟨rfl, ?_, ?_⟩
  · show (syncEvents r.dev snap).getLast? = some synReportEvent
    unfold syncEvents
    rw [List.getLast?_concat]
  · intro h
    have hq2 : (nextForceSync r snap).2.queue = [synReportEvent] :=
      syncEvents_of_agrees _ _ h
    have h1 := nextSync_cons (nextForceSync r snap).2 synReportEvent [] hq2
    refine ⟨hq2, ?_, ?_⟩
    · rw [h1]
    · rw [h1, nextSync_nil _ rfl]

/-- Witness for C4: on the idle demo device (no state difference) the
forced-sync drain is SYN_REPORT then EAGAIN. -/
theorem force_sync_terminating_report_witness :
    (nextForceSync idleDemoReader zeroSnapshot).1 = NextResult.sync none ∧
    (nextForceSync idleDemoReader zeroSnapshot).2.queue = [synReportEvent] ∧
    (nextSync (nextForceSync idleDemoReader zeroSnapshot).2).1 =
      NextResult.sync (some synReportEvent) ∧
    (nextSync (nextSync (nextForceSync idleDemoReader zeroSnapshot).2).2).1 =
      NextResult.eagain := by
  obtain ⟨h1, _, h3⟩ := force_sync_terminating_report idleDemoReader zeroSnapshot
  have h4 := h3 (by decide)
  exact ⟨h1, h4.1, h4.2.1, h4.2.2⟩

/-- C6: in the synthesized events of a slot with MT changes, the
`ABS_MT_SLOT` event leads; a tracking id going to -1 is emitted last; a
tracking id leaving -1 is emitted first among the changed codes. -/
theorem mt_slot_event_ordering (dev : Device) (snap : Snapshot) (s : Nat)
    (hch : changedMtCodes dev snap s ≠ []) :
    (syncSlotEvents dev snap s).head? =
      some ⟨EV_ABS, ABS_MT_SLOT, (s : Int)⟩ ∧
    (ABS_MT_TRACKING_ID ∈ changedMtCodes dev snap s →
      snap.mt s ABS_MT_TRACKING_ID = -1 →
      (syncSlotEvents dev snap s).getLast? =
        some ⟨EV_ABS, ABS_MT_TRACKING_ID, -1⟩) ∧
    (ABS_MT_TRACKING_ID ∈ changedMtCodes dev snap s →
      dev.mtValues s ABS_MT_TRACKING_ID = -1 →
      snap.mt s ABS_MT_TRACKING_ID ≠ -1 →
      (syncSlotEvents dev snap s)[1]? =
        some ⟨EV_ABS, ABS_MT_TRACKING_ID, snap.mt s ABS_MT_TRACKING_ID⟩) := by
  refine ⟨?_, ?_, ?_⟩
  · unfold syncSlotEvents
    rw [if_neg hch]
    rfl
  · intro hmem hneg
    unfold syncSlotEvents
    rw [if_neg hch]
    unfold orderedMtCodes
    rw [if_pos hmem, if_pos hneg, List.map_append]
    simp only [List.map_cons, List.map_nil]
    rw [← List.cons_append, List.getLast?_concat, hneg]
  · intro hmem hold hnew
    unfold syncSlotEvents
    rw [if_neg hch]
    unfold orderedMtCodes
    rw [if_pos hmem, if_neg hnew, if_pos hold]
    simp

/-- Witness for C6 at the spec's MT-resync scenario: slot 1's touch
begins (tracking id -1 to 17), so the tracking id event immediately
follows the `ABS_MT_SLOT` event. -/
theorem mt_slot_event_ordering_witness :
    (syncSlotEvents mtDemoDevice mtTouchSnapshot 1).head? =
      some ⟨EV_ABS, ABS_MT_SLOT, (1 : Int)⟩ ∧
    (ABS_MT_TRACKING_ID ∈ changedMtCodes mtDemoDevice mtTouchSnapshot 1 →
      mtTouchSnapshot.mt 1 ABS_MT_TRACKING_ID = -1 →
      (syncSlotEvents mtDemoDevice mtTouchSnapshot 1).getLast? =
        some ⟨EV_ABS, ABS_MT_TRACKING_ID, -1⟩) ∧
    (ABS_MT_TRACKING_ID ∈ changedMtCodes mtDemoDevice mtTouchSnapshot 1 →
      mtDemoDevice.mtValues 1 ABS_MT_TRACKING_ID = -1 →
      mtTouchSnapshot.mt 1 ABS_MT_TRACKING_ID ≠ -1 →
      (syncSlotEvents mtDemoDevice mtTouchSnapshot 1)[1]? =
        some ⟨EV_ABS, ABS_MT_TRACKING_ID,
          mtTouchSnapshot.mt 1 ABS_MT_TRACKING_ID⟩) :=
  mt_slot_event_ordering mtDemoDevice mtTouchSnapshot 1 (by decide)

/-- C7: an `ABS_MT_SLOT` event clamps the current slot to `min v (N-1)`
for `0 ≤ v`, leaves it unchanged for out-of-range values, and every
event-processing step preserves `current_slot < N`. -/
theorem current_slot_clamp_invariant (dev : Device) (v : Int)
    (hm : hasMtSlots dev = true) (hn : 0 < dev.numSlots) :
    (0 ≤ v →
      ((processEvent dev ⟨EV_ABS, ABS_MT_SLOT, v⟩).currentSlot : Int) =
        min v ((dev.numSlots : Int) - 1)) ∧
    (v < 0 →
      (processEvent dev ⟨EV_ABS, ABS_MT_SLOT, v⟩).currentSlot =
        dev.currentSlot) ∧
    (∀ ev : InputEvent, dev.currentSlot < dev.numSlots →
      (processEvent dev ev).currentSlot < (processEvent dev ev).numSlots) := by
  refine ⟨?_, ?_, ?_⟩
  · intro hv
    rw [processEvent_slot_clamp dev _ hm rfl rfl hv]
    show ((min v.toNat (dev.numSlots - 1) : Nat) : Int) = _
    rw [Nat.cast_min, Int.toNat_of_nonneg hv, Nat.cast_pred hn]
  · intro hv
    rw [processEvent_slot_oob dev _ hm rfl rfl hv]
  · intro ev hcs
    rw [processEvent_numSlots]
    unfold processEvent
    repeat' split
    all_goals first
      | exact hcs
      | exact lt_of_le_of_lt (min_le_right _ _) (by omega)

/-- Witness for C7 on the two-slot MT demo device: value 5 clamps to
slot 1. -/
theorem current_slot_clamp_invariant_witness :
    (0 ≤ (5 : Int) →
      ((processEvent mtDemoDevice ⟨EV_ABS, ABS_MT_SLOT, 5⟩).currentSlot : Int) =
        min 5 ((mtDemoDevice.numSlots : Int) - 1)) ∧
    ((5 : Int) < 0 →
      (processEvent mtDemoDevice ⟨EV_ABS, ABS_MT_SLOT, 5⟩).currentSlot =
        mtDemoDevice.currentSlot) ∧
    (∀ ev : InputEvent, mtDemoDevice.currentSlot < mtDemoDevice.numSlots →
      (processEvent mtDemoDevice ev).currentSlot <
        (processEvent mtDemoDevice ev).numSlots) :=
  current_slot_clamp_invariant mtDemoDevice 5 (by decide) (by decide)

end Evdev
